import Mathlib

/-!
Shallow embedding of the rust-zipkin distributed-tracing client.

Each definition below mirrors one item of the Rust source, named in the
doc comment by its file and symbol.  Machine integers are modelled as
`Nat`/`Int` with explicit reduction modulo powers of two where the Rust
code can overflow or wrap; fallible operations return `Option`/`Except`.
Durations and instants are carried as nanosecond counts.
-/

namespace Zipkin

/-- Word size of the 64-bit `usize`/`u64` machine integers of the source
(the crate targets 64-bit platforms). -/
def USIZE : Nat := 2 ^ 64

/-- Twos-complement reinterpretation of an unsigned `w`-bit value as a
signed one: the Rust cast `x as iN` applied to a `uN` value. -/
def toSigned (w : Nat) (x : Nat) : Int :=
  if x % 2 ^ w < 2 ^ (w - 1) then ((x % 2 ^ w : Nat) : Int)
  else ((x % 2 ^ w : Nat) : Int) - 2 ^ w

/-- Twos-complement reinterpretation of a signed value as an unsigned
`w`-bit one: the Rust cast `v as uN` applied to an `iN` value. -/
def toUnsigned (w : Nat) (v : Int) : Nat :=
  (v % ((2 : Int) ^ w)).toNat

/-! Fixed-rate sampler, `zipkin/src/sampler.rs`, `FixedRate`.

`FixedRate::new(sample_rate)` stores `sample_rate` and a `total_items`
counter starting at 0.  `sample` executes
`total_items.fetch_add(1, Relaxed) % sample_rate == 0`: the modulo of the
pre-increment counter value, with no guard against `sample_rate == 0`
(where `%` is a division by zero, hence a Rust panic, modelled as `none`),
and a `fetch_add` that wraps the 64-bit counter. -/

/-- One call of `FixedRate::sample` given the current counter value:
`none` models the division-by-zero panic when `sampleRate = 0`; otherwise
the kept/dropped decision together with the post-increment counter. -/
def FixedRate.sampleChecked (sampleRate : Nat) (totalItems : Nat) :
    Option (Bool × Nat) :=
  if sampleRate = 0 then none
  else some (decide (totalItems % sampleRate = 0), (totalItems + 1) % USIZE)

/-- Counter value of a `FixedRate` sampler after `k` calls of `sample`
(it starts at 0 per `FixedRate::new` and wraps at `USIZE`). -/
def FixedRate.counterAfter : Nat → Nat
  | 0 => 0
  | k + 1 => (FixedRate.counterAfter k + 1) % USIZE

/-- Result of the i-th `sample` call, counting calls from 1. -/
def FixedRate.nthCall (sampleRate i : Nat) : Option Bool :=
  (FixedRate.sampleChecked sampleRate (FixedRate.counterAfter (i - 1))).map Prod.fst

/-! Token-bucket rate limiter, `zipkin/src/sampler.rs`, `RateLimit`. -/

/-- Microseconds of a duration held in nanoseconds:
`d.as_secs() * 1_000_000 + d.subsec_nanos() / 1000`, which for a
nanosecond count equals division by 1000. -/
def micros (ns : Nat) : Nat := ns / 1000

/-- Milliseconds expressed in nanoseconds. -/
def msec (n : Nat) : Nat := n * 1000000

/-- State of `RateLimit<T>`: the three configuration fields, the
`AtomicIsize` token counter, and the `Instant` of the last refill. -/
structure RateLimit where
  quantum : Nat
  capacity : Nat
  interval : Nat
  tokens : Int
  ts : Nat
deriving Repr, DecidableEq

/-- `RateLimit::new(quantum, capacity, interval)` built at instant `now`:
capacity is raised to at least `quantum`, the bucket starts with
`quantum` tokens. -/
def RateLimit.new (quantum capacity interval now : Nat) : RateLimit :=
  { quantum := quantum
    capacity := max quantum capacity
    interval := interval
    tokens := (quantum : Int)
    ts := now }

/-- The refill amount computed in the refill branch of `RateLimit::sample`:
`cmp::max(quantum as u64 * elapsed_us / interval_us, capacity as u64)`
(note the source takes the maximum with `capacity`, it does not clamp
down to it). -/
def RateLimit.refillAmount (quantum capacity elapsed interval : Nat) : Nat :=
  max (quantum * micros elapsed / micros interval) capacity

/-- `RateLimit::sample` at absolute instant `now` (nanoseconds), run
sequentially: `fetch_sub` yields `remaining = tokens - 1`; a depleted
bucket before `interval` has elapsed rejects; otherwise the refill branch
installs `refillAmount as isize - 1` by a compare-and-swap against the
observed `remaining` (which in a sequential run always succeeds, the
failure arm performing a second decrement-and-check) and resets `ts`. -/
def RateLimit.sample (s : RateLimit) (now : Nat) : Bool × RateLimit :=
  let remaining := s.tokens - 1
  let s1 : RateLimit := { s with tokens := s.tokens - 1 }
  if 0 ≤ remaining then
    (true, s1)
  else
    let elapsed := now - s.ts
    if elapsed < s.interval then
      (false, s1)
    else
      let installed :=
        toSigned 64 (RateLimit.refillAmount s.quantum s.capacity elapsed s.interval) - 1
      if s1.tokens = remaining then
        (true, { s1 with tokens := installed, ts := now })
      else
        (decide (s1.tokens > 1), { s1 with tokens := s1.tokens - 1 })

/-- Successive `sample` calls at the given list of absolute instants. -/
def RateLimit.run (s : RateLimit) : List Nat → List Bool
  | [] => []
  | now :: rest =>
    let r := RateLimit.sample s now
    r.1 :: RateLimit.run r.2 rest

/-! Span data model, `zipkin-core/src/span.rs`. -/

/-- `TraceId { lo: u64, hi: Option<u64> }`. -/
structure TraceId where
  lo : Nat
  hi : Option Nat
deriving Repr, DecidableEq

/-- `Endpoint`: optional service name (the network address field of the
source is not touched by any verified claim and is left out). -/
structure Endpoint where
  name : Option String
deriving Repr, DecidableEq

/-- The tagged value union of binary span tags (`enum Value`): signed
payloads carry the twos-complement integer value, `double` carries the
raw IEEE-754 bits (a `u64` bit pattern). -/
inductive Value where
  | bool (v : Bool)
  | bytes (v : List Nat)
  | i16 (v : Int)
  | i32 (v : Int)
  | i64 (v : Int)
  | double (bits : Nat)
  | str (v : String)
  | string (v : String)
deriving Repr, DecidableEq

/-- `From<u16> for Value`: `Value::I16(v as i16)`. -/
def Value.fromU16 (v : Nat) : Value := Value.i16 (toSigned 16 v)

/-- `From<u32> for Value`: `Value::I32(v as i32)`. -/
def Value.fromU32 (v : Nat) : Value := Value.i32 (toSigned 32 v)

/-- `From<u64> for Value`: `Value::I64(v as i64)`. -/
def Value.fromU64 (v : Nat) : Value := Value.i64 (toSigned 64 v)

/-- `Value::as_u16`: `Some(v as u16)` on the `I16` variant, else `None`. -/
def Value.asU16 : Value → Option Nat
  | Value.i16 v => some (toUnsigned 16 v)
  | _ => none

/-- `Value::as_u32`: `Some(v as u32)` on the `I32` variant, else `None`. -/
def Value.asU32 : Value → Option Nat
  | Value.i32 v => some (toUnsigned 32 v)
  | _ => none

/-- `Value::as_u64`: `Some(v as u64)` on the `I64` variant, else `None`. -/
def Value.asU64 : Value → Option Nat
  | Value.i64 v => some (toUnsigned 64 v)
  | _ => none

/-- A timestamped event tag of a span (struct `Annot`ation of the source:
timestamp in epoch microseconds, short value string, optional endpoint). -/
structure Annot where
  timestamp : Int
  value : String
  endpoint : Option Endpoint
deriving Repr, DecidableEq

/-- A keyed typed tag of a span (the binary flavour of span tags). -/
structure BinAnnot where
  key : String
  value : Value
  endpoint : Option Endpoint
deriving Repr, DecidableEq

/-- `struct Span`: identifiers, timing, the two ordered tag sequences and
the `debug`/`sampled` flags. -/
structure Span where
  traceId : TraceId
  name : String
  id : Nat
  parentId : Option Nat
  timestamp : Int
  duration : Option Int
  annotations : List Annot
  binaryAnnotations : List BinAnnot
  debug : Option Bool
  sampled : Option Bool
deriving Repr, DecidableEq

/-- `Annotatable::used` for `Span`:
`self.debug == Some(true) || self.sampled != Some(false)`. -/
def Span.used (s : Span) : Bool :=
  s.debug == some true || s.sampled != some false

/-- `Annotatable::annotate` for `Span`: unconditionally push a new event
tag carrying the current timestamp `now`. -/
def Span.annotate (s : Span) (now : Int) (value : String)
    (endpoint : Option Endpoint) : Span :=
  { s with annotations :=
      s.annotations ++ [{ timestamp := now, value := value, endpoint := endpoint }] }

/-- `Annotatable::binary_annotate` for `Span`: unconditionally push a new
typed tag. -/
def Span.binaryAnnotate (s : Span) (key : String) (value : Value)
    (endpoint : Option Endpoint) : Span :=
  { s with binaryAnnotations :=
      s.binaryAnnotations ++ [{ key := key, value := value, endpoint := endpoint }] }

/-- The event form of the `annotate!` macro (`zipkin-core/src/macros.rs`):
`if span.used() { span.annotate(value, endpoint) }`. -/
def Span.annotateIfUsed (s : Span) (now : Int) (value : String)
    (endpoint : Option Endpoint) : Span :=
  if s.used then s.annotate now value endpoint else s

/-- The key/value form of the `annotate!` macro:
`if span.used() { span.binary_annotate(key, value, endpoint) }`. -/
def Span.binaryAnnotateIfUsed (s : Span) (key : String) (value : Value)
    (endpoint : Option Endpoint) : Span :=
  if s.used then s.binaryAnnotate key value endpoint else s

/-- One guarded call of either `annotate!` macro form. -/
inductive AnnOp where
  | event (now : Int) (value : String) (endpoint : Option Endpoint)
  | tag (key : String) (value : Value) (endpoint : Option Endpoint)

/-- Apply a sequence of guarded `annotate!` calls to a span. -/
def Span.applyOps (s : Span) : List AnnOp → Span
  | [] => s
  | AnnOp.event now v e :: rest => Span.applyOps (s.annotateIfUsed now v e) rest
  | AnnOp.tag k v e :: rest => Span.applyOps (s.binaryAnnotateIfUsed k v e) rest

/-! JSON rendering of identifiers, `zipkin-json/src/encode.rs`. -/

/-- Lowercase hexadecimal digit character for a value below 16
(as produced by the Rust `{:x}` formatter). -/
def hexDigit (n : Nat) : Char :=
  if n < 10 then Char.ofNat (48 + n) else Char.ofNat (87 + n)

/-- Fixed-width lowercase hexadecimal digit list of a number, most
significant digit first. -/
def hexFixed : Nat → Nat → List Char
  | 0, _ => []
  | w + 1, x => hexFixed w (x / 16) ++ [hexDigit (x % 16)]

/-- The Rust formatter `{:016x}` applied to a `u64` value: 16 lowercase
hex digits, zero padded. -/
def hex16 (x : Nat) : String := String.mk (hexFixed 16 x)

/-- `ToJson for TraceId`: `{hi:016x}{lo:016x}` when a high part is
present, `{lo:016x}` otherwise. -/
def TraceId.toJsonString (t : TraceId) : String :=
  match t.hi with
  | some hi => hex16 hi ++ hex16 t.lo
  | none => hex16 t.lo

/-- `ToJson for SpanId`: `{:016x}` of the bare 64-bit id (used for the
`id` and `parentId` fields of the span object). -/
def SpanId.toJsonString (id : Nat) : String := hex16 id

/-- Whether a character is a lowercase hexadecimal digit. -/
def isLowerHexDigit (c : Char) : Bool :=
  (48 ≤ c.toNat && c.toNat ≤ 57) || (97 ≤ c.toNat && c.toNat ≤ 102)

/-- Numeric value of a lowercase hexadecimal digit character. -/
def hexVal (c : Char) : Nat :=
  if c.toNat ≤ 57 then c.toNat - 48 else c.toNat - 87

/-- Read a hexadecimal string back into a number. -/
def hexDecode (s : String) : Nat :=
  s.data.foldl (fun a c => a * 16 + hexVal c) 0

/-! Thrift conversion of a span, `zipkin-thrift/src/encode.rs`. -/

/-- The generated thrift struct `Span` restricted to its scalar fields
(the converted event and tag lists are beyond the verified claims). -/
structure ThriftSpan where
  trace_id : Option Int
  trace_id_high : Option Int
  name : Option String
  id : Option Int
  parent_id : Option Int
  timestamp : Option Int
  duration : Option Int
  debug : Option Bool
deriving Repr, DecidableEq

/-- `ToThrift for Span`: every unsigned 64-bit identifier crosses into a
signed i64 field by the Rust cast `as i64`. -/
def Span.toThrift (s : Span) : ThriftSpan :=
  { trace_id := some (toSigned 64 s.traceId.lo)
    trace_id_high := s.traceId.hi.map (toSigned 64)
    name := some s.name
    id := some (toSigned 64 s.id)
    parent_id := s.parentId.map (toSigned 64)
    timestamp := some s.timestamp
    duration := s.duration
    debug := s.debug }

/-! Collector pipeline, `zipkin-core/src/collector.rs` and
`zipkin-async/src/collector.rs`. -/

/-- The typed error cases relevant to the collector pipeline: the lock
poisoning case (`ErrorKind::LockError` / `ErrorKind::PoisonError`), an
encoder failure and a transport failure. -/
inductive ZError where
  | lockPoisoned
  | encodeFailed
  | transportFailed
deriving Repr, DecidableEq

/-- An encoded byte buffer. -/
abbrev Buf := List Nat

/-- The transport block of `BaseCollector::submit` (zipkin-core):
`if let Ok(mut transport) = self.transport.lock() { transport.send(&buf)?; }`
so a poisoned transport lock silently skips the send.  Returns the submit
result together with the buffers actually passed to `send`. -/
def coreSend (transPoisoned : Bool) (send : Buf → Except ZError Unit)
    (buf : Buf) : Except ZError Unit × List Buf :=
  if transPoisoned then
    (Except.ok (), [])
  else
    match send buf with
    | Except.error e => (Except.error e, [buf])
    | Except.ok _ => (Except.ok (), [buf])

/-- `BaseCollector::submit` (zipkin-core): a fresh buffer, then
`if let Ok(mut encoder) = self.encoder.lock() { encoder.encode(spans, &mut buf)?; }`
(a poisoned encoder lock silently skips encoding, leaving the buffer
empty), then the transport block, then `Ok(())`. -/
def coreSubmit (encPoisoned transPoisoned : Bool)
    (encode : Except ZError Buf) (send : Buf → Except ZError Unit) :
    Except ZError Unit × List Buf :=
  if encPoisoned then
    coreSend transPoisoned send []
  else
    match encode with
    | Except.error e => (Except.error e, [])
    | Except.ok buf => coreSend transPoisoned send buf

/-- The `lock` helper of zipkin-async: a poisoned mutex is converted into
the typed `LockError` instead of running the callback. -/
def lockRun {α : Type} (poisoned : Bool) (callback : Except ZError α) :
    Except ZError α :=
  if poisoned then Except.error ZError.lockPoisoned else callback

/-- `BaseAsyncCollector::encode`: run the encoder under its lock via the
`lock` helper. -/
def asyncEncode (encPoisoned : Bool) (encoderEncode : Except ZError Buf) :
    Except ZError Buf :=
  lockRun encPoisoned encoderEncode

/-- Observable outcome of `async_submit`: the eventual result carried by
the returned future, the buffers moved onto thread-pool tasks, and the
buffers actually passed to `transport.send`. -/
structure AsyncSubmitResult where
  futureResult : Except ZError Unit
  scheduledTasks : List Buf
  sends : List Buf
deriving Repr

/-- `BaseAsyncCollector::async_submit`: encode on the calling thread; on
an encode error return a pre-failed future and schedule nothing; on
success move only the owned buffer onto a pool task which sends it under
the transport lock. -/
def asyncSubmit (encPoisoned : Bool) (encoderEncode : Except ZError Buf)
    (transPoisoned : Bool) (send : Buf → Except ZError Unit) :
    AsyncSubmitResult :=
  match asyncEncode encPoisoned encoderEncode with
  | Except.error e =>
    { futureResult := Except.error e, scheduledTasks := [], sends := [] }
  | Except.ok buf =>
    if transPoisoned then
      { futureResult := Except.error ZError.lockPoisoned
        scheduledTasks := [buf], sends := [] }
    else
      { futureResult := send buf, scheduledTasks := [buf], sends := [buf] }

/-- Concrete span exercising the thrift identifier conversion. -/
def c8Span : Span :=
  { traceId := { lo := 2 ^ 63, hi := some 5 }, name := "t", id := 42,
    parentId := some (2 ^ 64 - 1), timestamp := 0, duration := none,
    annotations := [], binaryAnnotations := [], debug := none,
    sampled := none }

/-- Concrete span with `debug = Some(false)` and `sampled = Some(false)`. -/
def c4SpanUnsampled : Span :=
  { traceId := { lo := 1, hi := none }, name := "test", id := 2,
    parentId := none, timestamp := 0, duration := none, annotations := [],
    binaryAnnotations := [], debug := some false, sampled := some false }

/-- Concrete span with `debug = Some(true)` and `sampled = Some(false)`. -/
def c4SpanDebug : Span :=
  { traceId := { lo := 1, hi := none }, name := "test", id := 2,
    parentId := none, timestamp := 0, duration := none, annotations := [],
    binaryAnnotations := [], debug := some true, sampled := some false }

/-! Theorems. -/

/-- A span that is not used is left untouched by the guarded event form. -/
theorem Span.annotateIfUsed_of_not_used (s : Span) (h : s.used = false)
    (now : Int) (v : String) (e : Option Endpoint) :
    s.annotateIfUsed now v e = s := by
  simp [Span.annotateIfUsed, h]

/-- A span that is not used is left untouched by the guarded tag form. -/
theorem Span.binaryAnnotateIfUsed_of_not_used (s : Span) (h : s.used = false)
    (k : String) (v : Value) (e : Option Endpoint) :
    s.binaryAnnotateIfUsed k v e = s := by
  simp [Span.binaryAnnotateIfUsed, h]

/-- A span that is not used is a fixed point of any sequence of guarded
`annotate!` calls. -/
theorem Span.applyOps_of_not_used (s : Span) (h : s.used = false) :
    ∀ ops, Span.applyOps s ops = s := by
  intro ops
  induction ops with
  | nil => rfl
  | cons op rest ih =>
    cases op with
    | event now v e =>
      rw [Span.applyOps, Span.annotateIfUsed_of_not_used s h]
      exact ih
    | tag k v e =>
      rw [Span.applyOps, Span.binaryAnnotateIfUsed_of_not_used s h]
      exact ih

/-- The wrapping counter after `k` calls equals `k` modulo the word size. -/
theorem FixedRate.counterAfter_eq (k : Nat) :
    FixedRate.counterAfter k = k % USIZE := by
  induction k with
  | zero => rfl
  | succ k ih =>
    rw [FixedRate.counterAfter, ih]
    simp only [USIZE]
    omega

/-- C1: the claim that the i-th call (from 1) of a `FixedRate::new(N)`
sampler returns true exactly when `(i - 1) % N == 0` fails once the
64-bit `fetch_add` counter wraps: with N = 3 the (2^64 + 1)-th call
returns true although `(2^64 + 1 - 1) % 3 = 1 ≠ 0`. -/
theorem c1_fixed_rate_counterexample :
    FixedRate.nthCall 3 (2 ^ 64 + 1) = some true ∧
      ¬ ((2 ^ 64 + 1 - 1) % 3 = 0) := by
  constructor
  · rw [FixedRate.nthCall, FixedRate.counterAfter_eq]
    norm_num [FixedRate.sampleChecked, USIZE]
  · decide

/-- C1 (amended): for every sample rate N ≥ 1 the i-th call (counting
from 1) of a fixed-rate sampler returns true if and only if
`((i - 1) % 2^64) % N == 0` — the counter starts at 0 and wraps at the
64-bit word size; in particular the claim as stated holds for all
i ≤ 2^64. -/
theorem c1_fixed_rate_amended (N i : Nat) (hN : 1 ≤ N) (_hi : 1 ≤ i) :
    FixedRate.nthCall N i = some (decide ((i - 1) % USIZE % N = 0)) := by
  rw [FixedRate.nthCall, FixedRate.counterAfter_eq, FixedRate.sampleChecked,
    if_neg (by omega)]
  rfl

/-- Witness for the amended C1: with N = 3 the 4th call is kept. -/
theorem c1_fixed_rate_amended_witness :
    FixedRate.nthCall 3 4 = some true := by
  have h := c1_fixed_rate_amended 3 4 (by decide) (by decide)
  rw [h]
  decide

/-- C10: `FixedRate::sample` has no zero guard on
`counter % sample_rate`: every sampler with rate at least 1 evaluates it
safely at every counter value, while rate 0 makes every call hit the
division by zero (the `none` case, a Rust panic). -/
theorem c10_fixed_rate_division_guard :
    (∀ rate counter, 1 ≤ rate →
       (FixedRate.sampleChecked rate counter).isSome = true) ∧
    (∀ counter, FixedRate.sampleChecked 0 counter = none) := by
  constructor
  · intro rate counter h
    rw [FixedRate.sampleChecked, if_neg (by omega)]
    rfl
  · intro counter
    rfl

/-- Witness for C10 at rate 3 and rate 0, counter 7. -/
theorem c10_fixed_rate_division_guard_witness :
    (FixedRate.sampleChecked 3 7).isSome = true ∧
      FixedRate.sampleChecked 0 7 = none :=
  ⟨c10_fixed_rate_division_guard.1 3 7 (by decide),
   c10_fixed_rate_division_guard.2 7⟩

/-- C2: the refill branch does not clamp the refill below `capacity` —
it takes `cmp::max` with it.  With quantum 1, capacity 2,
interval 100ms and elapsed 300ms the computed amount is 3 (> capacity)
and a depleted sampler installs 2 tokens after the pre-claim, exceeding
the `capacity - 1 = 1` bound asserted by the claim. -/
theorem c2_refill_not_clamped_to_capacity :
    RateLimit.refillAmount 1 2 (msec 300) (msec 100) = 3 ∧
    RateLimit.sample
        { quantum := 1, capacity := 2, interval := msec 100, tokens := 0, ts := 0 }
        (msec 300)
      = (true,
         { quantum := 1, capacity := 2, interval := msec 100, tokens := 2,
           ts := msec 300 }) ∧
    ¬ ((RateLimit.sample
          { quantum := 1, capacity := 2, interval := msec 100, tokens := 0, ts := 0 }
          (msec 300)).2.tokens ≤ (2 : Int) - 1) := by
  refine ⟨by decide, by decide, by decide⟩

/-- C5: with quantum 1, capacity 2, interval 100ms, the code reproduces
the claimed sequence `[true, false, true, true, false]` when the third
call happens 250ms after creation, but inside the timing window the
claim describes (calls 1-2 within 100ms of creation, 250ms between call
2 and call 3, calls 4-5 within 100ms of the refill) the un-clamped
refill can install 2 tokens after the pre-claim — at instants
10ms, 60ms, 310ms, 320ms, 330ms call 5 still finds a token and the
sequence ends in `true`. -/
theorem c5_rate_limit_sequence_diverges :
    RateLimit.run (RateLimit.new 1 2 (msec 100) 0)
        [0, 0, msec 250, msec 250, msec 250]
      = [true, false, true, true, false] ∧
    RateLimit.run (RateLimit.new 1 2 (msec 100) 0)
        [msec 10, msec 60, msec 310, msec 320, msec 330]
      = [true, false, true, true, true] := by
  refine ⟨by decide, by decide⟩

/-- C3: `BaseCollector::submit` of zipkin-core swallows poisoned locks:
with a poisoned encoder lock it still reports `Ok(())` and even hands
the empty buffer to the transport, and with a poisoned transport lock it
skips the send entirely and reports `Ok(())` — never the typed
lock-poisoning error the claim requires. -/
theorem c3_poisoned_lock_silently_ignored :
    coreSubmit true false (Except.error ZError.encodeFailed)
        (fun _ => Except.ok ())
      = (Except.ok (), [[]]) ∧
    coreSubmit false true (Except.ok [1, 2, 3]) (fun _ => Except.ok ())
      = (Except.ok (), []) :=
  ⟨rfl, rfl⟩

/-- C4: annotating through the `annotate!` guard is gated by `used()`:
a span whose debug flag is not `Some(true)` and whose sampled flag is
`Some(false)` is not used and is left completely unchanged by any
sequence of guarded calls, while a span with `debug = Some(true)` is
used (whatever `sampled` holds) and every guarded call appends exactly
one element to the corresponding sequence, leaving the other one
alone. -/
theorem c4_used_gates_annotations (s : Span) :
    (s.debug ≠ some true → s.sampled = some false →
       s.used = false ∧ ∀ ops, Span.applyOps s ops = s) ∧
    (s.debug = some true →
       s.used = true ∧
       (∀ now v e, (s.annotateIfUsed now v e).annotations
            = s.annotations ++ [{ timestamp := now, value := v, endpoint := e }] ∧
          (s.annotateIfUsed now v e).binaryAnnotations = s.binaryAnnotations) ∧
       (∀ k v e, (s.binaryAnnotateIfUsed k v e).binaryAnnotations
            = s.binaryAnnotations ++ [{ key := k, value := v, endpoint := e }] ∧
          (s.binaryAnnotateIfUsed k v e).annotations = s.annotations)) := by
  constructor
  · intro hd hs
    have hu : s.used = false := by
      rw [Span.used, hs]
      simp only [bne_self_eq_false, Bool.or_false]
      exact beq_eq_false_iff_ne.mpr hd
    exact ⟨hu, Span.applyOps_of_not_used s hu⟩
  · intro hd
    have hu : s.used = true := by
      rw [Span.used, hd]
      simp
    refine ⟨hu, ?_, ?_⟩
    · intro now v e
      rw [Span.annotateIfUsed, hu]
      exact ⟨rfl, rfl⟩
    · intro k v e
      rw [Span.binaryAnnotateIfUsed, hu]
      exact ⟨rfl, rfl⟩

/-- Witness for C4: an unsampled non-debug span swallows a guarded event
and a guarded tag; a debug span appends the guarded event. -/
theorem c4_used_gates_annotations_witness :
    (c4SpanUnsampled.used = false ∧
       Span.applyOps c4SpanUnsampled
           [AnnOp.event 0 "cs" none, AnnOp.tag "k" (Value.bool true) none]
         = c4SpanUnsampled) ∧
    (c4SpanDebug.used = true ∧
       (c4SpanDebug.annotateIfUsed 0 "cs" none).annotations
         = c4SpanDebug.annotations
             ++ [{ timestamp := 0, value := "cs", endpoint := none }]) := by
  obtain ⟨hu, hops⟩ := (c4_used_gates_annotations c4SpanUnsampled).1
    (by decide) (by rfl)
  obtain ⟨hu2, hann, -⟩ := (c4_used_gates_annotations c4SpanDebug).2 (by rfl)
  exact ⟨⟨hu, hops _⟩, ⟨hu2, (hann 0 "cs" none).1⟩⟩

/-- C7: `async_submit` encodes before scheduling anything.  When the
encode stage fails (encoder error or poisoned encoder lock) the returned
future is pre-failed with exactly that error, no thread-pool task is
scheduled and the transport send is never invoked; when it succeeds,
exactly the owned encoded buffer moves onto the single scheduled task,
whose result is the send performed under the transport lock. -/
theorem c7_async_submit_encode_first (encPoisoned transPoisoned : Bool)
    (encoderEncode : Except ZError Buf) (send : Buf → Except ZError Unit) :
    (∀ e, asyncEncode encPoisoned encoderEncode = Except.error e →
       asyncSubmit encPoisoned encoderEncode transPoisoned send
         = { futureResult := Except.error e, scheduledTasks := [], sends := [] }) ∧
    (∀ buf, asyncEncode encPoisoned encoderEncode = Except.ok buf →
       (asyncSubmit encPoisoned encoderEncode transPoisoned send).scheduledTasks
           = [buf] ∧
       (asyncSubmit encPoisoned encoderEncode transPoisoned send).futureResult
           = lockRun transPoisoned (send buf)) := by
  constructor
  · intro e h
    simp only [asyncSubmit, h]
  · intro buf h
    simp only [asyncSubmit, h, lockRun]
    by_cases hp : transPoisoned <;> simp [hp]

/-- Witness for C7: a poisoned encoder lock yields a pre-failed future
with the typed lock error, nothing scheduled, nothing sent. -/
theorem c7_async_submit_encode_first_witness :
    asyncSubmit true (Except.ok [7]) false (fun _ => Except.ok ())
      = { futureResult := Except.error ZError.lockPoisoned,
          scheduledTasks := [], sends := [] } :=
  (c7_async_submit_encode_first true false (Except.ok [7])
    (fun _ => Except.ok ())).1 ZError.lockPoisoned rfl

/-- Reading a twos-complement reinterpretation back at the same width is
the identity on `w`-bit unsigned values. -/
theorem toUnsigned_toSigned (w x : Nat) (hx : x < 2 ^ w) :
    toUnsigned w (toSigned w x) = x := by
  unfold toSigned toUnsigned
  rw [Nat.mod_eq_of_lt hx]
  have h0 : (0 : Int) ≤ (x : Int) := Int.natCast_nonneg x
  have h2 : (x : Int) < (2 : Int) ^ w := by exact_mod_cast hx
  split
  · rw [Int.emod_eq_of_lt h0 h2, Int.toNat_natCast]
  · have hsub : ((x : Int) - 2 ^ w) % 2 ^ w = (x : Int) % 2 ^ w := by
      simp [Int.sub_emod]
    rw [hsub, Int.emod_eq_of_lt h0 h2, Int.toNat_natCast]

/-- C9: converting an unsigned integer into a binary tag `Value` and
reading it back at the same width is the identity, although the payload
is stored as the same-width signed variant — e.g.
`Value::from(32768u16)` is `I16(-32768)`. -/
theorem c9_value_unsigned_roundtrip (v16 v32 v64 : Nat)
    (h16 : v16 < 2 ^ 16) (h32 : v32 < 2 ^ 32) (h64 : v64 < 2 ^ 64) :
    (Value.fromU16 v16).asU16 = some v16 ∧
    (Value.fromU32 v32).asU32 = some v32 ∧
    (Value.fromU64 v64).asU64 = some v64 ∧
    Value.fromU16 32768 = Value.i16 (-32768) := by
  refine ⟨?_, ?_, ?_, by decide⟩
  · simp [Value.fromU16, Value.asU16, toUnsigned_toSigned 16 v16 h16]
  · simp [Value.fromU32, Value.asU32, toUnsigned_toSigned 32 v32 h32]
  · simp [Value.fromU64, Value.asU64, toUnsigned_toSigned 64 v64 h64]

/-- Witness for C9 at the boundary values of each width. -/
theorem c9_value_unsigned_roundtrip_witness :
    (Value.fromU16 32768).asU16 = some 32768 ∧
    (Value.fromU32 2147483648).asU32 = some 2147483648 ∧
    (Value.fromU64 9223372036854775808).asU64 = some 9223372036854775808 := by
  obtain ⟨a, b, c, -⟩ := c9_value_unsigned_roundtrip 32768 2147483648
    9223372036854775808 (by decide) (by decide) (by decide)
  exact ⟨a, b, c⟩

/-- C8: the thrift conversion carries every unsigned 64-bit identifier
into its signed field by twos-complement reinterpretation: values below
2^63 are unchanged, values from 2^63 up become the negative
`x - 2^64`, and in both cases the value is congruent to `x` modulo
2^64 (the same 8-byte pattern). -/
theorem c8_thrift_ids_twos_complement (s : Span) (x : Nat)
    (hx : x < 2 ^ 64) :
    ((s.toThrift).trace_id = some (toSigned 64 s.traceId.lo) ∧
     (s.toThrift).trace_id_high = s.traceId.hi.map (toSigned 64) ∧
     (s.toThrift).id = some (toSigned 64 s.id) ∧
     (s.toThrift).parent_id = s.parentId.map (toSigned 64)) ∧
    ((2 ^ 63 ≤ x → toSigned 64 x = (x : Int) - 2 ^ 64 ∧ toSigned 64 x < 0) ∧
     (x < 2 ^ 63 → toSigned 64 x = (x : Int)) ∧
     toSigned 64 x % (2 : Int) ^ 64 = (x : Int)) := by
  have h2 : (x : Int) < (2 : Int) ^ 64 := by exact_mod_cast hx
  have h0 : (0 : Int) ≤ (x : Int) := Int.natCast_nonneg x
  refine ⟨⟨rfl, rfl, rfl, rfl⟩, ?_, ?_, ?_⟩
  · intro h
    rw [toSigned, Nat.mod_eq_of_lt hx, if_neg (by omega)]
    constructor
    · rfl
    · have h63 : ((2 : Int) ^ 63 : Int) ≤ (x : Int) := by exact_mod_cast h
      norm_num at h2 ⊢
      omega
  · intro h
    rw [toSigned, Nat.mod_eq_of_lt hx, if_pos (by omega)]
  · rw [toSigned, Nat.mod_eq_of_lt hx]
    split
    · exact Int.emod_eq_of_lt h0 h2
    · have hsub : ((x : Int) - 2 ^ 64) % 2 ^ 64 = (x : Int) % 2 ^ 64 := by
        simp [Int.sub_emod]
      rw [hsub, Int.emod_eq_of_lt h0 h2]

/-- Witness for C8 on a span whose trace id low part is 2^63. -/
theorem c8_thrift_ids_twos_complement_witness :
    (c8Span.toThrift).trace_id = some (toSigned 64 (2 ^ 63)) ∧
    toSigned 64 (2 ^ 63) = -(2 ^ 63) ∧
    toSigned 64 5 = 5 := by
  obtain ⟨⟨h1, -, -, -⟩, -⟩ :=
    c8_thrift_ids_twos_complement c8Span (2 ^ 63) (by norm_num)
  exact ⟨h1, by decide, by decide⟩

/-- A fixed-width hex rendering has exactly the requested width. -/
theorem hexFixed_length (w x : Nat) : (hexFixed w x).length = w := by
  induction w generalizing x with
  | zero => rfl
  | succ w ih => simp [hexFixed, ih]

/-- Digits below 16 render as lowercase hexadecimal characters. -/
theorem hexDigit_isLowerHex (d : Nat) (h : d < 16) :
    isLowerHexDigit (hexDigit d) = true := by
  interval_cases d <;> decide

/-- `hexVal` inverts `hexDigit` on digits below 16. -/
theorem hexVal_hexDigit (d : Nat) (h : d < 16) : hexVal (hexDigit d) = d := by
  interval_cases d <;> decide

/-- Every character of a fixed-width hex rendering is a lowercase
hexadecimal digit. -/
theorem mem_hexFixed_isLowerHex (w x : Nat) :
    ∀ c ∈ hexFixed w x, isLowerHexDigit c = true := by
  induction w generalizing x with
  | zero => intro c hc; simp [hexFixed] at hc
  | succ w ih =>
    intro c hc
    rw [hexFixed] at hc
    rcases List.mem_append.mp hc with h | h
    · exact ih _ c h
    · have : c = hexDigit (x % 16) := by simpa using h
      exact this ▸ hexDigit_isLowerHex _ (Nat.mod_lt _ (by decide))

/-- Folding the hex decoder over a fixed-width rendering recovers the
value modulo `16 ^ w`, shifted past the accumulator. -/
theorem hexFixed_foldl (w x a : Nat) :
    List.foldl (fun a c => a * 16 + hexVal c) a (hexFixed w x)
      = a * 16 ^ w + x % 16 ^ w := by
  induction w generalizing x a with
  | zero => simp [hexFixed, Nat.mod_one]
  | succ w ih =>
    rw [hexFixed, List.foldl_append, ih]
    simp only [List.foldl_cons, List.foldl_nil]
    rw [hexVal_hexDigit (x % 16) (Nat.mod_lt _ (by decide))]
    have hm : x % (16 ^ (w + 1)) = x % 16 + 16 * (x / 16 % 16 ^ w) := by
      rw [pow_succ, mul_comm ((16 : Nat) ^ w) 16]
      exact Nat.mod_mul
    rw [hm, pow_succ]
    ring

/-- C6: the JSON rendering of identifiers: a trace id with a high part
becomes the 32 lowercase hex digits `{hi:016x}{lo:016x}` (decoding back
to `hi * 2^64 + lo`), a trace id without one becomes the 16 lowercase
hex digits of the low part, and span ids (the `id` and `parentId`
fields) become 16 zero-padded lowercase hex digits decoding back to the
id. -/
theorem c6_json_id_hex (lo hi id : Nat) (hlo : lo < 2 ^ 64)
    (hhi : hi < 2 ^ 64) (hid : id < 2 ^ 64) :
    (TraceId.toJsonString { lo := lo, hi := some hi }).length = 32 ∧
    (∀ c ∈ (TraceId.toJsonString { lo := lo, hi := some hi }).data,
       isLowerHexDigit c = true) ∧
    hexDecode (TraceId.toJsonString { lo := lo, hi := some hi })
      = hi * 2 ^ 64 + lo ∧
    (TraceId.toJsonString { lo := lo, hi := none }).length = 16 ∧
    hexDecode (TraceId.toJsonString { lo := lo, hi := none }) = lo ∧
    SpanId.toJsonString id = hex16 id ∧
    (SpanId.toJsonString id).length = 16 ∧
    (∀ c ∈ (SpanId.toJsonString id).data, isLowerHexDigit c = true) ∧
    hexDecode (SpanId.toJsonString id) = id := by
  have e16 : (16 : Nat) ^ 16 = 2 ^ 64 := by norm_num
  have hdata : (TraceId.toJsonString { lo := lo, hi := some hi }).data
      = hexFixed 16 hi ++ hexFixed 16 lo := rfl
  refine ⟨?_, ?_, ?_, ?_, ?_, rfl, ?_, ?_, ?_⟩
  · show (hexFixed 16 hi ++ hexFixed 16 lo).length = 32
    simp [hexFixed_length]
  · rw [hdata]
    intro c hc
    rcases List.mem_append.mp hc with h | h
    · exact mem_hexFixed_isLowerHex 16 hi c h
    · exact mem_hexFixed_isLowerHex 16 lo c h
  · show List.foldl _ 0 (hexFixed 16 hi ++ hexFixed 16 lo) = hi * 2 ^ 64 + lo
    rw [List.foldl_append, hexFixed_foldl, hexFixed_foldl, e16,
      Nat.mod_eq_of_lt hhi, Nat.mod_eq_of_lt hlo]
    ring
  · show (hexFixed 16 lo).length = 16
    exact hexFixed_length 16 lo
  · show List.foldl _ 0 (hexFixed 16 lo) = lo
    rw [hexFixed_foldl, e16, Nat.mod_eq_of_lt hlo]
    ring
  · show (hexFixed 16 id).length = 16
    exact hexFixed_length 16 id
  · intro c hc
    exact mem_hexFixed_isLowerHex 16 id c hc
  · show List.foldl _ 0 (hexFixed 16 id) = id
    rw [hexFixed_foldl, e16, Nat.mod_eq_of_lt hid]
    ring

/-- Witness for C6 on the fixture identifiers of the JSON test: trace id
lo 123 and hi 456 render as the fixture string and decode back. -/
theorem c6_json_id_hex_witness :
    (TraceId.toJsonString { lo := 123, hi := some 456 }).length = 32 ∧
    hexDecode (TraceId.toJsonString { lo := 123, hi := some 456 })
      = 456 * 2 ^ 64 + 123 ∧
    (SpanId.toJsonString 291).length = 16 ∧
    TraceId.toJsonString { lo := 123, hi := some 456 }
      = "00000000000001c8000000000000007b" := by
  obtain ⟨h1, -, h3, -, -, -, -, -, -⟩ :=
    c6_json_id_hex 123 456 291 (by decide) (by decide) (by decide)
  obtain ⟨-, -, -, -, -, -, h7, -, -⟩ :=
    c6_json_id_hex 123 456 291 (by decide) (by decide) (by decide)
  exact ⟨h1, h3, h7, by decide⟩

end Zipkin
